import Mathlib

/-!
Verification of the gadb ADB client protocol layer.

The Go source is embedded shallowly: pure control flow becomes Lean
functions, socket I/O becomes explicit traces of abstract events, and
each fallible call is parameterised by its outcome (`Option String` for
an error, `Except String α` for a fallible result).  Byte strings are
`List Nat`, Go strings are Lean `String` or `List Char` where character
level detail matters.
-/

namespace Gadb

/-! ## Shell v2 message model (`shell.go`: `newShellReader`)

The shell v2 protocol tags each frame with a one-byte message id.  The
demultiplexer goroutine in `newShellReader` reads frames in a loop from
the `shellTransport` and pipes stdout/stderr payloads into one combined
stream.  We model the transport as the finite list of results its
successive `Read()` calls produce; exhaustion of the list corresponds to
the socket closing, which `Read` surfaces as an error (EOF). -/

inductive ShellMsgType where
  | shellStdin
  | shellStdout
  | shellStderr
  | shellExit
  | shellCloseStdin
  | shellWindowSizeChange
  | shellInvalid
deriving DecidableEq, Repr

/-- One result of `shellTransport.Read()`: either a decoded message
(type and payload bytes) or a read error. -/
inductive ShellRead where
  | msg (t : ShellMsgType) (data : List Nat)
  | readErr
deriving DecidableEq, Repr

/-- How the combined output stream of `newShellReader` ended: cleanly on
a `shellExit` message, or because `shellTransport.Read` returned an
error (including EOF after the transport was exhausted). -/
inductive ShellStreamEnd where
  | exitEnd
  | errEnd
deriving DecidableEq, Repr

/-- Shallow embedding of the goroutine loop of `newShellReader`
(part_001, lines 29-51).  It returns the bytes written to the pipe, in
order, together with the way the loop terminated.  The Go `switch`
writes `data` for `shellStdout`/`shellStderr` (guarded by
`len(data) > 0`), returns on `shellExit`, skips `shellCloseStdin`, and
falls through (continuing the loop) for any other message type.  Pipe
write errors occur only when the consumer closes the pipe early; this
model covers the producer side with a live consumer. -/
def shellReaderRun : List ShellRead → List Nat × ShellStreamEnd
  | [] => ([], .errEnd)
  | .readErr :: _ => ([], .errEnd)
  | .msg t data :: rest =>
    match t with
    | .shellStdout =>
      let r := shellReaderRun rest
      (if data.isEmpty then r.1 else data ++ r.1, r.2)
    | .shellStderr =>
      let r := shellReaderRun rest
      (if data.isEmpty then r.1 else data ++ r.1, r.2)
    | .shellExit => ([], .exitEnd)
    | .shellCloseStdin => shellReaderRun rest
    | _ => shellReaderRun rest

/-- The combined byte stream exposed by `Shell.Reader`. -/
def shellReaderOutput (rs : List ShellRead) : List Nat :=
  (shellReaderRun rs).1

/-- A read result that does not terminate the demultiplexing loop:
a decoded message that is not `shellExit`. -/
def ShellRead.nonTerminal : ShellRead → Prop
  | .msg t _ => t ≠ .shellExit
  | .readErr => False

instance (r : ShellRead) : Decidable r.nonTerminal := by
  cases r with
  | msg t data => exact inferInstanceAs (Decidable (t ≠ .shellExit))
  | readErr => exact inferInstanceAs (Decidable False)

/-- The concatenation of the payloads of the stdout and stderr messages
of a trace, in arrival order; other messages contribute nothing. -/
def stdoutStderrConcat (rs : List ShellRead) : List Nat :=
  rs.flatMap fun r =>
    match r with
    | .msg .shellStdout d => d
    | .msg .shellStderr d => d
    | _ => []

/-- Appending to a possibly-empty payload: the `len(data) > 0` guard in
the source never changes the bytes that reach the pipe. -/
theorem if_isEmpty_append (d r : List Nat) :
    (if d.isEmpty then r else d ++ r) = d ++ r := by
  cases d <;> simp

/-- Master lemma: running the demultiplexer on `rs ++ tail` where every
element of `rs` is a non-terminal read first emits the stdout/stderr
payloads of `rs`, then behaves as on `tail` alone. -/
theorem shellReaderRun_append (rs tail : List ShellRead)
    (h : ∀ r ∈ rs, r.nonTerminal) :
    shellReaderRun (rs ++ tail) =
      (stdoutStderrConcat rs ++ (shellReaderRun tail).1,
       (shellReaderRun tail).2) := by
  induction rs with
  | nil => simp [stdoutStderrConcat]
  | cons r rest ih =>
    have hr : r.nonTerminal := h r (List.mem_cons_self r rest)
    have hrest : ∀ x ∈ rest, x.nonTerminal :=
      fun x hx => h x (List.mem_cons_of_mem r hx)
    cases r with
    | readErr => exact absurd hr (by simp [ShellRead.nonTerminal])
    | msg t d =>
      cases t <;>
        simp_all [shellReaderRun, stdoutStderrConcat, ShellRead.nonTerminal,
          if_isEmpty_append]

/-- C1: for every sequence of shell v2 messages ending in the final
`exit` frame, the combined output stream produced by `newShellReader`
yields exactly the concatenation of the payloads of the stdout and
stderr messages, in arrival order, with no bytes from any other message
type interleaved. -/
theorem newShellReader_output_is_stdout_stderr_concat
    (rs : List ShellRead) (e : Nat) (h : ∀ r ∈ rs, r.nonTerminal) :
    shellReaderOutput (rs ++ [.msg .shellExit [e]]) = stdoutStderrConcat rs := by
  unfold shellReaderOutput
  rw [shellReaderRun_append rs [.msg .shellExit [e]] h]
  simp [shellReaderRun]

/-- Witness for C1 on a concrete trace. -/
theorem newShellReader_output_is_stdout_stderr_concat_witness :
    shellReaderOutput
      ([.msg .shellStdout [1, 2], .msg .shellCloseStdin [9],
        .msg .shellStderr [3], .msg .shellStdin [7]] ++
        [.msg .shellExit [0]]) = [1, 2, 3] := by
  rw [newShellReader_output_is_stdout_stderr_concat _ 0 (by decide)]
  decide

/-- C2: the combined stream ends exactly at the first `exitCode` message
or the first read error: everything after the terminator is never read,
on `exitCode` the stream ends cleanly and the one-byte exit status `c`
is discarded (the output does not depend on it), and a read error also
ends the stream, after the payloads already emitted. -/
theorem newShellReader_termination
    (rs junk : List ShellRead) (c : Nat) (h : ∀ r ∈ rs, r.nonTerminal) :
    shellReaderRun (rs ++ (.msg .shellExit [c] :: junk)) =
        (stdoutStderrConcat rs, .exitEnd) ∧
      shellReaderRun (rs ++ (.readErr :: junk)) =
        (stdoutStderrConcat rs, .errEnd) := by
  constructor
  · rw [shellReaderRun_append rs (.msg .shellExit [c] :: junk) h]
    simp [shellReaderRun]
  · rw [shellReaderRun_append rs (.readErr :: junk) h]
    simp [shellReaderRun]

/-- Witness for C2 on a concrete trace: the exit status byte 42 and the
messages after the terminator do not reach the output. -/
theorem newShellReader_termination_witness :
    shellReaderRun
        ([.msg .shellStdout [5]] ++
          (.msg .shellExit [42] :: [.msg .shellStdout [6]])) =
        ([5], .exitEnd) ∧
      shellReaderRun
        ([.msg .shellStdout [5]] ++
          (.readErr :: [.msg .shellStdout [6]])) =
        ([5], .errEnd) := by
  have := newShellReader_termination [.msg .shellStdout [5]]
    [.msg .shellStdout [6]] 42 (by decide)
  simpa using this

/-- C5: a `closeStdin` message anywhere in the stream is ignored: the
demultiplexer continues reading, none of the payload bytes of the
`closeStdin` message reach the combined output, and the stream is not
terminated by it. -/
theorem newShellReader_closeStdin_ignored
    (rs₁ rs₂ : List ShellRead) (d : List Nat)
    (h : ∀ r ∈ rs₁, r.nonTerminal) :
    shellReaderRun (rs₁ ++ (.msg .shellCloseStdin d :: rs₂)) =
      shellReaderRun (rs₁ ++ rs₂) := by
  rw [shellReaderRun_append rs₁ (.msg .shellCloseStdin d :: rs₂) h,
    shellReaderRun_append rs₁ rs₂ h]
  simp [shellReaderRun]

/-- Witness for C5 on a concrete trace: a `closeStdin` frame with a
nonempty payload between two stdout frames changes nothing. -/
theorem newShellReader_closeStdin_ignored_witness :
    shellReaderRun
        ([.msg .shellStdout [1]] ++
          (.msg .shellCloseStdin [8, 9] :: [.msg .shellStdout [2], .msg .shellExit [0]])) =
      shellReaderRun ([.msg .shellStdout [1]] ++ [.msg .shellStdout [2], .msg .shellExit [0]]) :=
  newShellReader_closeStdin_ignored [.msg .shellStdout [1]]
    [.msg .shellStdout [2], .msg .shellExit [0]] [8, 9] (by decide)

/-! ## Directory entries (`device.go`: `DeviceFileInfo`, `Device.List`)

`DeviceFileInfo` carries a raw Unix mode in `Mode` (Go `os.FileMode`,
a `uint32`), a size and a modification time.  Go compares an entry to
the zero value `DeviceFileInfo{}` to detect the end-of-listing
sentinel; we model `time.Time` by its zero-based clock reading as a
`Nat`, so the zero value is all fields zero/empty. -/

structure DeviceFileInfo where
  Name : String
  Mode : Nat
  Size : Nat
  LastModified : Nat
deriving DecidableEq, Repr

/-- The Go zero value of `DeviceFileInfo`, the end-of-listing sentinel. -/
def DeviceFileInfo.zero : DeviceFileInfo :=
  { Name := "", Mode := 0, Size := 0, LastModified := 0 }

/-- Shallow embedding of `DeviceFileInfo.IsDir` (device.go, lines 20-22):
`(info.Mode & (1 << 14)) == (1 << 14)` on the raw mode value. -/
def DeviceFileInfo.IsDir (info : DeviceFileInfo) : Bool :=
  (info.Mode &&& (1 <<< 14)) == (1 <<< 14)

/-- Outcomes of the fallible calls `Device.List` makes before its entry
loop: `createDeviceTransport`, `tp.CreateSyncTransport`, and
`sync.Send("LIST", remotePath)`. -/
structure ListOutcomes where
  tpErr : Option String
  syncErr : Option String
  sendErr : Option String

/-- The entry loop of `Device.List` (device.go, lines 287-293), over the
list of results successive `sync.ReadDirectoryEntry()` calls produce.
The loop continues while the read succeeds, breaks without appending
when the entry equals the zero value, and otherwise appends the entry.
If the loop leaves on a read error, the entries accumulated so far are
returned together with that error; exhaustion of the reply list is a
read error (EOF) from the closed socket. -/
def listEntriesLoop : List (Except String DeviceFileInfo) →
    List DeviceFileInfo × Option String
  | [] => ([], some "EOF")
  | .error e :: _ => ([], some e)
  | .ok entry :: rest =>
    if entry = DeviceFileInfo.zero then ([], none)
    else
      let r := listEntriesLoop rest
      (entry :: r.1, r.2)

/-- Shallow embedding of `Device.List` (device.go, lines 268-296).  The
result slice is `Option (List DeviceFileInfo)`: `none` is Go `nil`
(returned on the early error paths before the loop), `some l` is the
slice built from `make([]DeviceFileInfo, 0)` by appending, which is
non-nil even when empty. -/
def deviceList (o : ListOutcomes)
    (reads : List (Except String DeviceFileInfo)) :
    Option (List DeviceFileInfo) × Option String :=
  match o.tpErr with
  | some e => (none, some e)
  | none =>
    match o.syncErr with
    | some e => (none, some e)
    | none =>
      match o.sendErr with
      | some e => (none, some e)
      | none =>
        let r := listEntriesLoop reads
        (some r.1, r.2)

/-- The entry loop first accumulates every non-sentinel entry of `es`,
then continues on the remaining replies. -/
theorem listEntriesLoop_append (es : List DeviceFileInfo)
    (tail : List (Except String DeviceFileInfo))
    (h : ∀ x ∈ es, x ≠ DeviceFileInfo.zero) :
    listEntriesLoop (es.map .ok ++ tail) =
      (es ++ (listEntriesLoop tail).1, (listEntriesLoop tail).2) := by
  induction es with
  | nil => simp
  | cons x rest ih =>
    have hx : x ≠ DeviceFileInfo.zero := h x (List.mem_cons_self x rest)
    have hrest : ∀ y ∈ rest, y ≠ DeviceFileInfo.zero :=
      fun y hy => h y (List.mem_cons_of_mem x hy)
    simp [listEntriesLoop, hx, ih hrest]

/-- C3: with the transport established, `Device.List` appends decoded
entries until the zero-valued sentinel or a read error: the sentinel is
never included and stops the listing with no error (replies after it
are never read), a read error returns the entries accumulated so far
together with that error, and a listing whose only reply is the
sentinel yields the empty non-nil slice (`some []`) with no error. -/
theorem deviceList_entries (o : ListOutcomes)
    (es : List DeviceFileInfo)
    (junk : List (Except String DeviceFileInfo)) (err : String)
    (h1 : o.tpErr = none) (h2 : o.syncErr = none) (h3 : o.sendErr = none)
    (h : ∀ x ∈ es, x ≠ DeviceFileInfo.zero) :
    deviceList o (es.map .ok ++ (.ok DeviceFileInfo.zero :: junk)) =
        (some es, none) ∧
      deviceList o (es.map .ok ++ (.error err :: junk)) =
        (some es, some err) ∧
      deviceList o [.ok DeviceFileInfo.zero] = (some [], none) := by
  refine ⟨?_, ?_, ?_⟩ <;>
    simp [deviceList, h1, h2, h3,
      listEntriesLoop_append es _ h, listEntriesLoop]

/-- Witness for C3 on a concrete listing of two entries followed by the
sentinel, the same listing cut short by a read error, and the
sentinel-only listing. -/
theorem deviceList_entries_witness :
    deviceList ⟨none, none, none⟩
        ([⟨"a", 33188, 10, 5⟩, ⟨"b", 16877, 0, 6⟩].map .ok ++
          (.ok DeviceFileInfo.zero :: [.error "junk"])) =
        (some [⟨"a", 33188, 10, 5⟩, ⟨"b", 16877, 0, 6⟩], none) ∧
      deviceList ⟨none, none, none⟩
        ([⟨"a", 33188, 10, 5⟩, ⟨"b", 16877, 0, 6⟩].map .ok ++
          (.error "broken pipe" :: [.error "junk"])) =
        (some [⟨"a", 33188, 10, 5⟩, ⟨"b", 16877, 0, 6⟩], some "broken pipe") ∧
      deviceList ⟨none, none, none⟩ [.ok DeviceFileInfo.zero] =
        (some [], none) :=
  deviceList_entries ⟨none, none, none⟩
    [⟨"a", 33188, 10, 5⟩, ⟨"b", 16877, 0, 6⟩] [.error "junk"]
    "broken pipe" rfl rfl rfl (by decide)

/-- C10: `DeviceFileInfo.IsDir` returns true exactly when bit 14
(octal 40000) of the raw mode is set; in particular it is also true for
a block device mode (octal 60000) and a socket mode (octal 140000),
not only for plain directories. -/
theorem isDir_iff_bit14 :
    (∀ info : DeviceFileInfo, info.IsDir = true ↔ info.Mode.testBit 14 = true) ∧
      DeviceFileInfo.IsDir ⟨"blk", 0o60000, 0, 0⟩ = true ∧
      DeviceFileInfo.IsDir ⟨"sock", 0o140000, 0, 0⟩ = true := by
  refine ⟨fun info => ?_, by decide, by decide⟩
  unfold DeviceFileInfo.IsDir
  rw [Nat.one_shiftLeft, Nat.and_two_pow]
  cases h : info.Mode.testBit 14 <;> simp [h]

/-! ## File push (`device.go`: `Device.Push`)

`Device.Push` drives the sync SEND sub-protocol over an established
`syncTransport`.  We record the protocol operations it attempts as a
trace of abstract actions, each fallible call being parameterised by
its outcome.  `mtime` is `modification.Unix()`, an `int64`, modelled as
`Int`; Go `uint32(x)` is truncation modulo `2^32`. -/

inductive SyncAction where
  | syncSend (cmd : String) (arg : String)
  | syncSendStream
  | syncSendStatus (cmd : String) (payload : Nat)
  | syncVerifyStatus
deriving DecidableEq, Repr

/-- Outcomes of the fallible calls inside `Device.Push`, in program
order: `createDeviceTransport`, `CreateSyncTransport`, then the four
sub-protocol steps. -/
structure PushOutcomes where
  tpErr : Option String
  syncErr : Option String
  sendErr : Option String
  streamErr : Option String
  statusErr : Option String
  verifyErr : Option String

/-- Shallow embedding of `Device.Push` (device.go, lines 310-344) as the
trace of sync-protocol actions it attempts together with the returned
error.  The Go chain is `sync.Send("SEND", data)` with
`data = fmt.Sprintf("%s,%d", remotePath, mode)` (`%d` on `os.FileMode`
prints the underlying `uint32` in decimal), then `sync.SendStream`,
then `sync.SendStatus("DONE", uint32(modification.Unix()))`, then
`sync.VerifyStatus()`; each step returns on its error. -/
def devicePush (remotePath : String) (mode : Nat) (mtime : Int)
    (o : PushOutcomes) : List SyncAction × Option String :=
  match o.tpErr with
  | some e => ([], some e)
  | none =>
  match o.syncErr with
  | some e => ([], some e)
  | none =>
  let data := remotePath ++ "," ++ toString mode
  match o.sendErr with
  | some e => ([.syncSend "SEND" data], some e)
  | none =>
  match o.streamErr with
  | some e => ([.syncSend "SEND" data, .syncSendStream], some e)
  | none =>
  let stamp := (mtime % (2 ^ 32 : Int)).toNat
  match o.statusErr with
  | some e =>
    ([.syncSend "SEND" data, .syncSendStream, .syncSendStatus "DONE" stamp],
     some e)
  | none =>
  match o.verifyErr with
  | some e =>
    ([.syncSend "SEND" data, .syncSendStream, .syncSendStatus "DONE" stamp,
      .syncVerifyStatus], some e)
  | none =>
    ([.syncSend "SEND" data, .syncSendStream, .syncSendStatus "DONE" stamp,
      .syncVerifyStatus], none)

/-- The file-push step sequence as the spec states it: a SEND frame
whose argument is the UTF-8 string `<remote-path>,<decimal-mode>`, the
data stream, a DONE frame carrying the Unix timestamp truncated to
`uint32`, and exactly one status read. -/
def pushSteps (remotePath : String) (mode : Nat) (mtime : Int) :
    List SyncAction :=
  [ .syncSend "SEND" (remotePath ++ "," ++ toString mode),
    .syncSendStream,
    .syncSendStatus "DONE" ((mtime % (2 ^ 32 : Int)).toNat),
    .syncVerifyStatus ]

/-- Spec-side combinator: attempt steps in order; the first failing
step ends the run with its error, later steps are never attempted. -/
def runSteps : List (SyncAction × Option String) → List SyncAction × Option String
  | [] => ([], none)
  | (a, some e) :: _ => ([a], some e)
  | (a, none) :: rest =>
    let r := runSteps rest
    (a :: r.1, r.2)

/-- C4: once the transports are established, `Device.Push` attempts
exactly the four steps of `pushSteps` in order — SEND with argument
`<remote-path>,<decimal-mode>`, the source stream, DONE carrying
`uint32(modification.Unix())`, one `VerifyStatus` read — and the first
failing step aborts the sequence with the error of that step. -/
theorem devicePush_follows_protocol (remotePath : String) (mode : Nat)
    (mtime : Int) (o : PushOutcomes)
    (h1 : o.tpErr = none) (h2 : o.syncErr = none) :
    devicePush remotePath mode mtime o =
      runSteps ((pushSteps remotePath mode mtime).zip
        [o.sendErr, o.streamErr, o.statusErr, o.verifyErr]) := by
  obtain ⟨tpErr, syncErr, sendErr, streamErr, statusErr, verifyErr⟩ := o
  subst h1
  subst h2
  cases sendErr <;> cases streamErr <;> cases statusErr <;> cases verifyErr <;>
    simp [devicePush, pushSteps, runSteps]

/-- Witness for C4: a successful push of mode 436 (octal 664) and a
push failing at the DONE step, at concrete inputs. -/
theorem devicePush_follows_protocol_witness :
    devicePush "/data/local/tmp/a.apk" 436 1700000000
        ⟨none, none, none, none, none, none⟩ =
      runSteps ((pushSteps "/data/local/tmp/a.apk" 436 1700000000).zip
        [none, none, none, none]) ∧
      devicePush "/data/local/tmp/a.apk" 436 1700000000
        ⟨none, none, none, none, some "fail", none⟩ =
      runSteps ((pushSteps "/data/local/tmp/a.apk" 436 1700000000).zip
        [none, none, some "fail", none]) :=
  ⟨devicePush_follows_protocol "/data/local/tmp/a.apk" 436 1700000000
      ⟨none, none, none, none, none, none⟩ rfl rfl,
    devicePush_follows_protocol "/data/local/tmp/a.apk" 436 1700000000
      ⟨none, none, none, none, some "fail", none⟩ rfl rfl⟩

/-! ## Strings: Go whitespace, TrimSpace, Join, Fields, Split

Go `unicode.IsSpace` holds exactly on the Unicode White_Space code
points; `strings.TrimSpace` removes them from both ends,
`strings.Join` interleaves a separator, `strings.Fields` splits around
runs of white space, `strings.Split(s, "\n")` cuts at each newline. -/

def goIsSpace (c : Char) : Bool :=
  let n := c.toNat
  (decide (9 ≤ n) && decide (n ≤ 13)) || n == 32 || n == 0x85 || n == 0xA0 ||
    n == 0x1680 || (decide (0x2000 ≤ n) && decide (n ≤ 0x200A)) ||
    n == 0x2028 || n == 0x2029 || n == 0x202F || n == 0x205F || n == 0x3000

def goTrimSpaceList (l : List Char) : List Char :=
  ((l.dropWhile goIsSpace).reverse.dropWhile goIsSpace).reverse

def goTrimSpace (s : String) : String :=
  ⟨goTrimSpaceList s.toList⟩

def goJoin : List String → String → String
  | [], _ => ""
  | [a], _ => a
  | a :: b :: rest, sep => a ++ sep ++ goJoin (b :: rest) sep

/-- `splitCharList l` is Go `strings.Split(s, "\n")` on the character
list of `s`: the empty string yields one empty piece, and every newline
starts a new piece. -/
def splitCharList : List Char → List (List Char)
  | [] => [[]]
  | c :: rest =>
    if c = '\n' then [] :: splitCharList rest
    else
      match splitCharList rest with
      | [] => [[c]]
      | h :: t => (c :: h) :: t

/-- Accumulator form of Go `strings.Fields`: `cur` holds the reversed
characters of the field being scanned; a white-space character closes
the current field, any other character extends it. -/
def goFieldsAux : List Char → List Char → List (List Char)
  | [], cur => if cur = [] then [] else [cur.reverse]
  | c :: cs, cur =>
    if goIsSpace c then
      if cur = [] then goFieldsAux cs []
      else cur.reverse :: goFieldsAux cs []
    else goFieldsAux cs (c :: cur)

/-- Go `strings.Fields`: the maximal runs of non-white-space characters. -/
def goFields (l : List Char) : List (List Char) :=
  goFieldsAux l []

/-! ## Device shell commands (`device.go`) -/

/-- The space-joined command string built by `RunShellCommandWithBytes`
and `RunShellCommandAsync` (device.go, lines 170-172 and 184-186):
`fmt.Sprintf("%s %s", cmd, strings.Join(args, " "))` when `args` is
non-empty, `cmd` alone otherwise. -/
def shellJoined (cmd : String) (args : List String) : String :=
  if args.length > 0 then cmd ++ " " ++ goJoin args " " else cmd

/-- Abstract I/O events a Device command performs, in order: dialing the
adb server (`newTransport`), sending a service request, verifying a
status token, draining the stream (`ReadBytesAll`), wrapping the socket
in a shell transport, and closing the transport. -/
inductive AdbEvent where
  | connOpen
  | tpSend (s : String)
  | tpVerify
  | tpReadAll
  | tpCreateShell
  | tpClose
deriving DecidableEq, Repr

/-- Outcomes of the fallible transport calls a Device command can make,
in program order: the dial and the `host:transport:<serial>` handshake
inside `createDeviceTransport`, then the service `Send`,
`VerifyResponse`, `ReadBytesAll`, and `CreateShellTransport`. -/
structure DeviceOutcomes where
  dialErr : Option String
  hostSendErr : Option String
  hostVerifyErr : Option String
  sendErr : Option String
  verifyErr : Option String
  readResult : Except String (List Nat)
  shellErr : Option String

/-- Shallow embedding of `Device.createDeviceTransport` (device.go,
lines 229-239): dial, send `host:transport:<serial>`, verify. -/
def createDeviceTransport (serial : String) (o : DeviceOutcomes) :
    List AdbEvent × Option String :=
  match o.dialErr with
  | some e => ([.connOpen], some e)
  | none =>
  match o.hostSendErr with
  | some e => ([.connOpen, .tpSend ("host:transport:" ++ serial)], some e)
  | none =>
  match o.hostVerifyErr with
  | some e =>
    ([.connOpen, .tpSend ("host:transport:" ++ serial), .tpVerify], some e)
  | none =>
    ([.connOpen, .tpSend ("host:transport:" ++ serial), .tpVerify], none)

/-- Shallow embedding of `Device.executeCommand` (device.go, lines
241-266) with `onlyVerifyResponse` false: create the device transport,
send the service request, verify, drain the reply; `defer tp.Close()`
closes the transport on every path after it was created.  The returned
bytes on the `onlyVerify := true` early return are Go `nil`, modelled
as `[]` (callers on that path ignore them). -/
def executeCommand (serial command : String) (onlyVerify : Bool)
    (o : DeviceOutcomes) : List AdbEvent × Except String (List Nat) :=
  let ct := createDeviceTransport serial o
  match ct.2 with
  | some e => (ct.1, .error e)
  | none =>
  match o.sendErr with
  | some e => (ct.1 ++ [.tpSend command, .tpClose], .error e)
  | none =>
  match o.verifyErr with
  | some e => (ct.1 ++ [.tpSend command, .tpVerify, .tpClose], .error e)
  | none =>
  if onlyVerify then (ct.1 ++ [.tpSend command, .tpVerify, .tpClose], .ok [])
  else
    match o.readResult with
    | .error e =>
      (ct.1 ++ [.tpSend command, .tpVerify, .tpReadAll, .tpClose], .error e)
    | .ok raw =>
      (ct.1 ++ [.tpSend command, .tpVerify, .tpReadAll, .tpClose], .ok raw)

/-- The exact error returned for a blank shell command. -/
def emptyShellErr : String := "adb shell: command cannot be empty"

/-- Shallow embedding of `Device.RunShellCommandWithBytes` (device.go,
lines 169-178). -/
def runShellCommandWithBytes (serial cmd : String) (args : List String)
    (o : DeviceOutcomes) : List AdbEvent × Except String (List Nat) :=
  let c := shellJoined cmd args
  if goTrimSpace c = "" then ([], .error emptyShellErr)
  else executeCommand serial ("shell:" ++ c) false o

/-- Shallow embedding of `Device.RunShellCommand` (device.go, lines
164-167): it delegates to `RunShellCommandWithBytes`; the Go
`string(raw)` conversion preserves the byte content, so the model
returns the same bytes. -/
def runShellCommand (serial cmd : String) (args : List String)
    (o : DeviceOutcomes) : List AdbEvent × Except String (List Nat) :=
  runShellCommandWithBytes serial cmd args o

/-- Shallow embedding of `Device.RunShellCommandAsync` (device.go,
lines 183-218): blank-command check, device transport, service `Send`,
`VerifyResponse`, `CreateShellTransport`.  Each error path after the
transport was created explicitly closes it; on success the transport
stays open inside the returned `Shell` (modelled as `.ok ()`). -/
def runShellCommandAsync (serial cmd : String) (args : List String)
    (o : DeviceOutcomes) : List AdbEvent × Except String Unit :=
  let c := shellJoined cmd args
  if goTrimSpace c = "" then ([], .error emptyShellErr)
  else
    let ct := createDeviceTransport serial o
    match ct.2 with
    | some e => (ct.1, .error e)
    | none =>
    match o.sendErr with
    | some e => (ct.1 ++ [.tpSend ("shell:" ++ c), .tpClose], .error e)
    | none =>
    match o.verifyErr with
    | some e => (ct.1 ++ [.tpSend ("shell:" ++ c), .tpVerify, .tpClose], .error e)
    | none =>
    match o.shellErr with
    | some e =>
      (ct.1 ++ [.tpSend ("shell:" ++ c), .tpVerify, .tpCreateShell, .tpClose],
       .error e)
    | none =>
      (ct.1 ++ [.tpSend ("shell:" ++ c), .tpVerify, .tpCreateShell], .ok ())

/-- Once the blank-command guard is passed, `executeCommand` always
performs I/O: its event trace begins with the dial and is never empty. -/
theorem executeCommand_events_ne_nil (serial command : String) (b : Bool)
    (o : DeviceOutcomes) : (executeCommand serial command b o).1 ≠ [] := by
  obtain ⟨d, hs, hv, se, ve, rr, sh⟩ := o
  cases d <;> cases hs <;> cases hv <;> cases se <;> cases ve <;> cases rr <;>
    cases b <;> simp [executeCommand, createDeviceTransport]

/-- With a non-blank command, `RunShellCommandAsync` always performs
I/O: its event trace is never empty. -/
theorem runShellCommandAsync_events_ne_nil (serial cmd : String)
    (args : List String) (o : DeviceOutcomes)
    (h : ¬goTrimSpace (shellJoined cmd args) = "") :
    (runShellCommandAsync serial cmd args o).1 ≠ [] := by
  obtain ⟨d, hs, hv, se, ve, rr, sh⟩ := o
  cases d <;> cases hs <;> cases hv <;> cases se <;> cases ve <;> cases sh <;>
    simp [runShellCommandAsync, createDeviceTransport, h]

/-- C9: each of `RunShellCommand`, `RunShellCommandWithBytes` and
`RunShellCommandAsync` returns the error string
`adb shell: command cannot be empty` with an empty I/O trace (no
connection opened, no bytes exchanged) exactly when the space-joined
command string trims to the empty string. -/
theorem shell_command_blank_guard (serial cmd : String)
    (args : List String) (o : DeviceOutcomes) :
    (runShellCommandWithBytes serial cmd args o =
        ([], .error emptyShellErr) ↔ goTrimSpace (shellJoined cmd args) = "") ∧
      (runShellCommand serial cmd args o =
        ([], .error emptyShellErr) ↔ goTrimSpace (shellJoined cmd args) = "") ∧
      (runShellCommandAsync serial cmd args o =
        ([], .error emptyShellErr) ↔ goTrimSpace (shellJoined cmd args) = "") := by
  by_cases h : goTrimSpace (shellJoined cmd args) = ""
  · simp [runShellCommandWithBytes, runShellCommand, runShellCommandAsync, h]
  · have hwb : runShellCommandWithBytes serial cmd args o ≠
        ([], .error emptyShellErr) := by
      simp only [runShellCommandWithBytes, if_neg h]
      intro heq
      exact executeCommand_events_ne_nil serial
        ("shell:" ++ shellJoined cmd args) false o (congrArg Prod.fst heq)
    have hasync : runShellCommandAsync serial cmd args o ≠
        ([], .error emptyShellErr) := by
      intro heq
      exact runShellCommandAsync_events_ne_nil serial cmd args o h
        (congrArg Prod.fst heq)
    exact ⟨⟨fun heq => absurd heq hwb, fun hb => absurd hb h⟩,
      ⟨fun heq => absurd heq hwb, fun hb => absurd hb h⟩,
      ⟨fun heq => absurd heq hasync, fun hb => absurd hb h⟩⟩

/-- C7: once the device transport has been created (the dial and the
`host:transport` handshake succeeded) and the command is non-blank,
every error return of `RunShellCommandAsync` — from the service `Send`,
`VerifyResponse`, or `CreateShellTransport` — closes the transport as
its last action before returning, and a successful return never closes
it: the transport stays open, owned by the returned `Shell`. -/
theorem runShellCommandAsync_releases_transport (serial cmd : String)
    (args : List String) (o : DeviceOutcomes)
    (hcmd : ¬goTrimSpace (shellJoined cmd args) = "")
    (h1 : o.dialErr = none) (h2 : o.hostSendErr = none)
    (h3 : o.hostVerifyErr = none) :
    (∀ e, (runShellCommandAsync serial cmd args o).2 = .error e →
        (runShellCommandAsync serial cmd args o).1.getLast? =
          some .tpClose) ∧
      ((runShellCommandAsync serial cmd args o).2 = .ok () →
        AdbEvent.tpClose ∉ (runShellCommandAsync serial cmd args o).1) := by
  obtain ⟨d, hs, hv, se, ve, rr, sh⟩ := o
  simp only at h1 h2 h3
  subst h1
  subst h2
  subst h3
  cases se <;> cases ve <;> cases sh <;>
    simp [runShellCommandAsync, createDeviceTransport, hcmd,
      List.getLast?, List.getLast]

/-- Witness for C7 at concrete inputs: a failing `CreateShellTransport`
closes the transport last; an all-successful run never closes it. -/
theorem runShellCommandAsync_releases_transport_witness :
    ((∀ e, (runShellCommandAsync "emulator-5554" "logcat" []
          ⟨none, none, none, none, none, .ok [], some "shell v2 unsupported"⟩).2 =
            .error e →
        (runShellCommandAsync "emulator-5554" "logcat" []
          ⟨none, none, none, none, none, .ok [], some "shell v2 unsupported"⟩).1.getLast? =
          some .tpClose) ∧
      ((runShellCommandAsync "emulator-5554" "logcat" []
          ⟨none, none, none, none, none, .ok [], some "shell v2 unsupported"⟩).2 = .ok () →
        AdbEvent.tpClose ∉ (runShellCommandAsync "emulator-5554" "logcat" []
          ⟨none, none, none, none, none, .ok [], some "shell v2 unsupported"⟩).1)) ∧
      ((∀ e, (runShellCommandAsync "emulator-5554" "logcat" []
          ⟨none, none, none, none, none, .ok [], none⟩).2 = .error e →
        (runShellCommandAsync "emulator-5554" "logcat" []
          ⟨none, none, none, none, none, .ok [], none⟩).1.getLast? =
          some .tpClose) ∧
      ((runShellCommandAsync "emulator-5554" "logcat" []
          ⟨none, none, none, none, none, .ok [], none⟩).2 = .ok () →
        AdbEvent.tpClose ∉ (runShellCommandAsync "emulator-5554" "logcat" []
          ⟨none, none, none, none, none, .ok [], none⟩).1)) :=
  ⟨runShellCommandAsync_releases_transport "emulator-5554" "logcat" []
      ⟨none, none, none, none, none, .ok [], some "shell v2 unsupported"⟩
      (by decide) rfl rfl rfl,
    runShellCommandAsync_releases_transport "emulator-5554" "logcat" []
      ⟨none, none, none, none, none, .ok [], none⟩
      (by decide) rfl rfl rfl⟩

/-! ## Reverse forward listing (`device.go`: `Device.ReverseList`) -/

structure DeviceForward where
  Serial : String
  Local : String
  Remote : String
deriving DecidableEq, Repr

/-- The line loop of `Device.ReverseList` (device.go, lines 426-442),
with the accumulator slice made explicit: trim each line, skip blank
lines and lines with fewer than two fields, map a two-field line to
`(host, f0, f1)` and a longer line to its first three fields. -/
def reverseForwardLoop : List (List Char) → List DeviceForward →
    List DeviceForward
  | [], acc => acc
  | l :: rest, acc =>
    let line := goTrimSpaceList l
    if line = [] then reverseForwardLoop rest acc
    else
      let fields := goFields line
      if fields.length < 2 then reverseForwardLoop rest acc
      else if fields.length = 2 then
        reverseForwardLoop rest
          (acc ++ [{ Serial := "host", Local := ⟨fields[0]!⟩,
                     Remote := ⟨fields[1]!⟩ }])
      else
        reverseForwardLoop rest
          (acc ++ [{ Serial := ⟨fields[0]!⟩, Local := ⟨fields[1]!⟩,
                     Remote := ⟨fields[2]!⟩ }])

/-- Shallow embedding of `Device.ReverseList` (device.go, lines
418-444) applied to the raw text response of `reverse:list-forward`:
split into lines on newlines and run the line loop on an empty
accumulator. -/
def reverseListParse (resp : String) : List DeviceForward :=
  reverseForwardLoop (splitCharList resp.toList) []

/-- Spec-side reading of one response line, as C8 states it: no entry
for a line blank after trimming or with fewer than two fields, a
`host`-serial entry from a two-field line, and the first three fields
of a longer line. -/
def reverseLineEntry (l : List Char) : List DeviceForward :=
  let line := goTrimSpaceList l
  if line = [] then []
  else
    match goFields line with
    | [] => []
    | [_] => []
    | [f0, f1] => [{ Serial := "host", Local := ⟨f0⟩, Remote := ⟨f1⟩ }]
    | f0 :: f1 :: f2 :: _ =>
      [{ Serial := ⟨f0⟩, Local := ⟨f1⟩, Remote := ⟨f2⟩ }]

/-- The line loop emits, after the accumulator, one block of entries
per line in line order. -/
theorem reverseForwardLoop_eq (lines : List (List Char))
    (acc : List DeviceForward) :
    reverseForwardLoop lines acc = acc ++ lines.flatMap reverseLineEntry := by
  induction lines generalizing acc with
  | nil => simp [reverseForwardLoop]
  | cons l rest ih =>
    simp only [reverseForwardLoop, List.flatMap_cons]
    by_cases he : goTrimSpaceList l = []
    · simp [he, reverseLineEntry, ih]
    · cases hf : goFields (goTrimSpaceList l) with
      | nil => simp [he, hf, reverseLineEntry, ih]
      | cons f0 t =>
        cases t with
        | nil => simp [he, hf, reverseLineEntry, ih]
        | cons f1 t2 =>
          cases t2 with
          | nil => simp [he, hf, reverseLineEntry, ih]
          | cons f2 t3 =>
            have hlt : ¬((f0 :: f1 :: f2 :: t3).length < 2) := by
              simp only [List.length_cons]
              omega
            have hne2 : ¬((f0 :: f1 :: f2 :: t3).length = 2) := by
              simp only [List.length_cons]
              omega
            simp [he, hf, reverseLineEntry, ih, hlt, hne2]

/-- C8: `Device.ReverseList` parses the `reverse:list-forward` text
line by line: a line blank after trimming or with fewer than two
whitespace-separated fields yields no entry, a two-field line yields
`DeviceForward(host, f0, f1)`, a line with three or more fields yields
`DeviceForward(f0, f1, f2)` from its first three fields, and the
entries appear in line order. -/
theorem reverseList_line_grammar (resp : String) :
    reverseListParse resp =
      (splitCharList resp.toList).flatMap reverseLineEntry := by
  unfold reverseListParse
  rw [reverseForwardLoop_eq]
  simp

/-! ## Closing transports (`shell.go`: `Shell.Close`; spec §4.1-§4.3) -/

/-- Modelled from the spec: the bodies of `transport.Close`,
`syncTransport.Close` and `shellTransport.Close` are not among the
provided sources (only `Shell.Close`, which delegates to
`shellTransport.Close`, is).  Per the spec, `Close()` releases the
underlying socket, is idempotent — calling twice must not fail or
panic/crash — and never re-sends protocol bytes.  The socket is a
closed flag plus the protocol bytes written so far; closing marks it
closed, writes nothing, and reports no error.  All operations are total
functions, so no crash is possible in the model. -/
structure SocketState where
  closed : Bool
  sentBytes : List Nat
deriving DecidableEq, Repr

/-- Modelled from the spec: releasing the socket. -/
def socketClose (s : SocketState) : SocketState × Option String :=
  ({ s with closed := true }, none)

structure transport where
  sock : SocketState
deriving DecidableEq, Repr

/-- Modelled from the spec: `transport.Close` releases the socket. -/
def transport.Close (t : transport) : transport × Option String :=
  let r := socketClose t.sock
  ({ sock := r.1 }, r.2)

structure syncTransport where
  sock : SocketState
deriving DecidableEq, Repr

/-- Modelled from the spec: `syncTransport.Close` releases the socket. -/
def syncTransport.Close (t : syncTransport) : syncTransport × Option String :=
  let r := socketClose t.sock
  ({ sock := r.1 }, r.2)

structure shellTransport where
  sock : SocketState
deriving DecidableEq, Repr

/-- Modelled from the spec: `shellTransport.Close` tears down the
socket, which is the only cancellation mechanism for the remote
command. -/
def shellTransport.Close (t : shellTransport) : shellTransport × Option String :=
  let r := socketClose t.sock
  ({ sock := r.1 }, r.2)

/-- The `Shell` struct of the source (part_001, lines 14-18), reduced
to the state its `Close` method touches. -/
structure Shell where
  st : shellTransport
deriving DecidableEq, Repr

/-- Shallow embedding of `Shell.Close` (part_001, lines 21-23): it
returns `s.st.Close()`. -/
def Shell.Close (s : Shell) : Shell × Option String :=
  let r := s.st.Close
  ({ st := r.1 }, r.2)

/-- C6: a second `Close()` on a `Shell` — and on a `transport`,
`syncTransport` or `shellTransport` — is errorless and leaves the state
untouched: in particular no further protocol bytes are sent, and being
a total function it cannot panic or crash. -/
theorem close_idempotent :
    (∀ s : Shell, (s.Close).1.Close = ((s.Close).1, none)) ∧
      (∀ t : transport, (t.Close).1.Close = ((t.Close).1, none)) ∧
      (∀ t : syncTransport, (t.Close).1.Close = ((t.Close).1, none)) ∧
      (∀ t : shellTransport, (t.Close).1.Close = ((t.Close).1, none)) :=
  ⟨fun _ => rfl, fun _ => rfl, fun _ => rfl, fun _ => rfl⟩

end Gadb

